import Mathlib

/-!
Verification of the project2context directory walker (src/project2context.js).

The program is embedded shallowly: the filesystem is an inductive tree of
files and directories, file contents are byte lists, and each filesystem
call that may fail carries an explicit error knob on the file or directory
node.  Pure helpers (token estimation, BOM detection, filtering) are
translated line by line from the source; the two passes (tree pass
generateTree, content pass walkDir) are translated as recursive functions
over the filesystem tree, with the content pass returning Except to model
the uncaught exception of a failed readdirSync.
-/

namespace P2C

/-- EXCLUDED_DIRS of the source (lines 5-12). -/
def EXCLUDED_DIRS : List String :=
  ["node_modules", "venv", ".git", "__pycache__", "build", "dist"]

/-- EXCLUDED_FILES of the source (lines 14-18). -/
def EXCLUDED_FILES : List String :=
  ["package-lock.json", "yarn.lock", "project-context.txt"]

/-- TEXT_EXTENSIONS of the source (lines 20-25). -/
def TEXT_EXTENSIONS : List String :=
  [".txt", ".md", ".py", ".js", ".ts", ".jsx", ".tsx", ".cpp", ".h",
   ".hpp", ".c", ".cs", ".java", ".html", ".css", ".scss", ".sass",
   ".json", ".yml", ".yaml", ".xml", ".env", ".config", ".dockerfile",
   ".sh", ".bat", ".ps1"]

/-- EXCLUDED_EXTENSIONS of the source (lines 27-30). -/
def EXCLUDED_EXTENSIONS : List String :=
  [".svg", ".png", ".jpg", ".jpeg", ".gif", ".ico", ".pdf", ".zip",
   ".tar", ".gz", ".rar", ".exe", ".dll", ".pdb", ".pyc"]

/-- Index of the last '.' in a character list, if any. -/
def lastDotIdx (cs : List Char) : Option Nat :=
  (List.range cs.length).foldl
    (fun acc i => if cs.getD i ' ' = '.' then some i else acc) none

/-- path.extname on a base name: the suffix from the last '.', except that a
dot in the first position (hidden files such as ".env") yields "". -/
def extname (name : String) : String :=
  match lastDotIdx name.data with
  | none => ""
  | some 0 => ""
  | some i => String.mk (name.data.drop i)

/-- JavaScript's toLowerCase, character by character (ASCII as the filter
configuration needs). -/
def lowerStr (s : String) : String := String.mk (s.data.map Char.toLower)

/-- One file's observable filesystem behaviour: its raw bytes, whether the
content sniff's readFileSync throws, whether getFileEncoding's open/read
throws, and whether (and with which message) the content pass's full
readFileSync throws. -/
structure FileData where
  bytes : List Nat
  sniffErr : Bool
  bomErr : Bool
  readErr : Option String
deriving Repr, DecidableEq

/-- A filesystem node: a named file, or a named directory whose listing is
`none` when readdirSync on it throws (permission denied). -/
inductive FSNode where
  | file (name : String) (data : FileData)
  | dir (name : String) (children : Option (List FSNode))
deriving Repr

/-- The node's name. -/
def FSNode.name : FSNode → String
  | .file n _ => n
  | .dir n _ => n

/-- isDirectory() of the directory entry. -/
def FSNode.isDir : FSNode → Bool
  | .file _ _ => false
  | .dir _ _ => true

/-- isFile() of the directory entry. -/
def FSNode.isFileEntry : FSNode → Bool
  | .file _ _ => true
  | .dir _ _ => false

/-- isTextFile (source lines 41-54): read the file, keep the first 1024
bytes, accept iff no null byte occurs there; a read error yields false. -/
def isTextFile (d : FileData) : Bool :=
  if d.sniffErr then false
  else !((d.bytes.take 1024).contains 0)

/-- Byte i of the 4-byte probe buffer: Buffer.alloc(4) is zero filled, so a
byte past the end of the file stays 0. -/
def byteAt (bs : List Nat) (i : Nat) : Nat := (bs.drop i).headD 0

/-- getFileEncoding (source lines 56-86): BOM detection on the first four
bytes; note the second test (0xFF 0xFE or 0xFE 0xFF) is checked before the
four-byte tests, and an open/read error defaults to "utf8". -/
def getFileEncoding (d : FileData) : String :=
  if d.bomErr then "utf8"
  else
    let b0 := byteAt d.bytes 0
    let b1 := byteAt d.bytes 1
    let b2 := byteAt d.bytes 2
    let b3 := byteAt d.bytes 3
    if b0 = 0xEF ∧ b1 = 0xBB ∧ b2 = 0xBF then "utf8"
    else if (b0 = 0xFF ∧ b1 = 0xFE) ∨ (b0 = 0xFE ∧ b1 = 0xFF) then "utf16le"
    else if (b0 = 0xFF ∧ b1 = 0xFE ∧ b2 = 0x00 ∧ b3 = 0x00) ∨
            (b0 = 0x00 ∧ b1 = 0x00 ∧ b2 = 0xFE ∧ b3 = 0xFF) then "utf32le"
    else "utf8"

/-- The character class of the JavaScript regex \s (whitespace). -/
def jsWhitespace (c : Char) : Bool :=
  let n := c.toNat
  decide (n = 0x20 ∨ n = 0x09 ∨ n = 0x0A ∨ n = 0x0B ∨ n = 0x0C ∨ n = 0x0D ∨
    n = 0xA0 ∨ n = 0x1680 ∨ (0x2000 ≤ n ∧ n ≤ 0x200A) ∨
    n = 0x2028 ∨ n = 0x2029 ∨ n = 0x202F ∨ n = 0x205F ∨ n = 0x3000 ∨
    n = 0xFEFF)

/-- text.split(/\s+/): segments between maximal whitespace runs, with an
empty leading (trailing) segment when the text starts (ends) with
whitespace, and [""] for the empty text.  `inRun` records whether the scan
is inside a whitespace run. -/
def splitWsGo : List Char → List Char → Bool → List (List Char)
  | [], acc, _ => [acc.reverse]
  | c :: rest, acc, inRun =>
    if jsWhitespace c then
      if inRun then splitWsGo rest acc true
      else acc.reverse :: splitWsGo rest [] true
    else splitWsGo rest (c :: acc) false

/-- text.split(/\s+/) on a character list. -/
def splitWs (t : List Char) : List (List Char) := splitWsGo t [] false

/-- The test !(/[a-zA-Z0-9\s]/).test(c) of the source's special-character
count. -/
def isSpecialChar (c : Char) : Bool :=
  !(decide (('a' ≤ c ∧ c ≤ 'z') ∨ ('A' ≤ c ∧ c ≤ 'Z') ∨
      ('0' ≤ c ∧ c ≤ '9')) || jsWhitespace c)

/-- estimateTokens (source lines 88-96): words + specialChars +
floor(words / 4). -/
def estimateTokens (t : List Char) : Nat :=
  let words := (splitWs t).length
  let specialChars := (t.filter isSpecialChar).length
  words + specialChars + words / 4

/-- shouldProcessFile (source lines 98-127): self-exclusion, excluded file
names, excluded extensions, the text-or-no-extension gate, then the content
sniff. -/
def shouldProcessFile (scriptName : String) (name : String) (d : FileData) :
    Bool :=
  let extension := lowerStr (extname name)
  if name = scriptName then false
  else if EXCLUDED_FILES.contains name then false
  else if EXCLUDED_EXTENSIONS.contains extension then false
  else if !(TEXT_EXTENSIONS.contains extension || extension == "") then false
  else isTextFile d

/-- The Unicode replacement character U+FFFD, which Node's decoders emit for
byte sequences with no well-formed decoding. -/
def replChar : Char := '�'

/-- A UTF-8 continuation byte. -/
def utf8Cont (b : Nat) : Bool := decide (0x80 ≤ b ∧ b ≤ 0xBF)

/-- Buffer → string decoding for encoding "utf8", WHATWG style: well-formed
sequences decode to their code point, ill-formed ones to U+FFFD with the
offending byte reconsidered. -/
def decodeUtf8 : List Nat → List Char
  | [] => []
  | b :: rest =>
    if b < 0x80 then Char.ofNat b :: decodeUtf8 rest
    else if 0xC2 ≤ b ∧ b ≤ 0xDF then
      match h2 : rest with
      | [] => [replChar]
      | b2 :: rest2 =>
        if utf8Cont b2 then
          Char.ofNat ((b - 0xC0) * 0x40 + (b2 - 0x80)) :: decodeUtf8 rest2
        else replChar :: decodeUtf8 rest
    else if 0xE0 ≤ b ∧ b ≤ 0xEF then
      match h3 : rest with
      | [] => [replChar]
      | b2 :: rest2 =>
        if (if b = 0xE0 then 0xA0 else 0x80) ≤ b2 ∧
            b2 ≤ (if b = 0xED then 0x9F else 0xBF) then
          match h3b : rest2 with
          | [] => [replChar]
          | b3 :: rest3 =>
            if utf8Cont b3 then
              Char.ofNat ((b - 0xE0) * 0x1000 + (b2 - 0x80) * 0x40 +
                (b3 - 0x80)) :: decodeUtf8 rest3
            else replChar :: decodeUtf8 rest2
        else replChar :: decodeUtf8 rest
    else if 0xF0 ≤ b ∧ b ≤ 0xF4 then
      match h4 : rest with
      | [] => [replChar]
      | b2 :: rest2 =>
        if (if b = 0xF0 then 0x90 else 0x80) ≤ b2 ∧
            b2 ≤ (if b = 0xF4 then 0x8F else 0xBF) then
          match h4b : rest2 with
          | [] => [replChar]
          | b3 :: rest3 =>
            if utf8Cont b3 then
              match h4c : rest3 with
              | [] => [replChar]
              | b4 :: rest4 =>
                if utf8Cont b4 then
                  Char.ofNat ((b - 0xF0) * 0x40000 + (b2 - 0x80) * 0x1000 +
                    (b3 - 0x80) * 0x40 + (b4 - 0x80)) :: decodeUtf8 rest4
                else replChar :: decodeUtf8 rest3
            else replChar :: decodeUtf8 rest2
        else replChar :: decodeUtf8 rest
    else replChar :: decodeUtf8 rest
termination_by l => l.length
decreasing_by all_goals (simp_wf; try simp_all); all_goals omega

/-- Buffer → string decoding for encoding "utf16le": pairs of bytes are
little-endian code units; a surrogate pair combines, a lone surrogate (not
representable as a scalar value) decodes to U+FFFD, and a trailing odd byte
is dropped. -/
def decodeUtf16le : List Nat → List Char
  | [] => []
  | [_] => []
  | lo :: hi :: rest =>
    let u := lo + 0x100 * hi
    if 0xD800 ≤ u ∧ u ≤ 0xDBFF then
      match h2 : rest with
      | lo2 :: hi2 :: rest2 =>
        let u2 := lo2 + 0x100 * hi2
        if 0xDC00 ≤ u2 ∧ u2 ≤ 0xDFFF then
          Char.ofNat (0x10000 + (u - 0xD800) * 0x400 + (u2 - 0xDC00)) ::
            decodeUtf16le rest2
        else replChar :: decodeUtf16le rest
      | _ => [replChar]
    else if 0xDC00 ≤ u ∧ u ≤ 0xDFFF then replChar :: decodeUtf16le rest
    else Char.ofNat u :: decodeUtf16le rest
termination_by l => l.length
decreasing_by all_goals (simp_wf; try simp_all); all_goals omega

/-- fs.readFileSync(filePath, { encoding }) of the content pass (source
line 230): Node rejects the name "utf32le" (ERR_UNKNOWN_ENCODING); otherwise
a failing read throws its error, and the bytes decode with the selected
codec. -/
def readFull (enc : String) (d : FileData) : Except String (List Char) :=
  if enc = "utf32le" then Except.error "Unknown encoding: utf32le"
  else
    match d.readErr with
    | some e => Except.error e
    | none =>
      if enc = "utf16le" then Except.ok (decodeUtf16le d.bytes)
      else Except.ok (decodeUtf8 d.bytes)

/-- The lowercased name both sort comparators key on. -/
def nameKey (e : FSNode) : String := lowerStr e.name

/-- The tree pass's comparator (source lines 147-153): directories first,
then the lowercased names; localeCompare is modelled as code-point order on
the lowercased names. -/
def treeCmp (a b : FSNode) : Int :=
  if a.isDir ∧ ¬ b.isDir then -1
  else if ¬ a.isDir ∧ b.isDir then 1
  else if nameKey a < nameKey b then -1
  else if nameKey b < nameKey a then 1
  else 0

/-- "The comparator does not put a after b": sorting with a stable sort by
this relation models Array.prototype.sort (stable) with treeCmp. -/
def treeLE (a b : FSNode) : Prop := treeCmp a b ≤ 0

instance : DecidableRel treeLE := fun a b => by
  unfold treeLE
  infer_instance

/-- The sorted child list of the tree pass. -/
def sortEntries (l : List FSNode) : List FSNode := List.insertionSort treeLE l

/-- The content pass's comparator on file entries (source line 219):
case-insensitive name order. -/
def fileLE (a b : FSNode) : Prop := nameKey a ≤ nameKey b

instance : DecidableRel fileLE := fun a b => by
  unfold fileLE
  infer_instance

/-- The sorted file list of the content pass. -/
def sortFiles (l : List FSNode) : List FSNode := List.insertionSort fileLE l

/-- The three writes of one file block (source lines 233-235), collected as
one string. -/
def fileBlock (relPath : String) (content : List Char) : String :=
  "\n<file path=\"" ++ relPath ++ "\">\n" ++ String.mk content ++ "\n</file>\n"

/-- The error write of the content pass (source line 244). -/
def errorBlock (relPath : String) (msg : String) : String :=
  "\n<error file=\"" ++ relPath ++ "\">" ++ msg ++ "</error>\n"

/-- path.relative bookkeeping: the path of a child below the current
relative directory, with "/" separators. -/
def relJoin (relDir name : String) : String :=
  if relDir = "" then name else relDir ++ "/" ++ name

/-- (content.match(/\n/g) || []).length of source line 237. -/
def countNewlines (t : List Char) : Nat :=
  (t.filter (fun c => c = '\n')).length

/-- The running totals and the stream of content-section writes. -/
structure WalkState where
  out : List String
  totalLines : Nat
  totalTokens : Nat
  fileCount : Nat
deriving Repr, DecidableEq

/-- The per-file body of the content pass's loop (source lines 221-246):
filter, detect the encoding, read, emit a file block and bump the counters;
a read/decode failure is caught and emits an error block instead. -/
def processFile (scriptName relDir : String) (st : WalkState) (e : FSNode) :
    WalkState :=
  match e with
  | FSNode.dir _ _ => st
  | FSNode.file name d =>
    if shouldProcessFile scriptName name d then
      match readFull (getFileEncoding d) d with
      | Except.ok content =>
        { out := st.out ++ [fileBlock (relJoin relDir name) content]
          totalLines := st.totalLines + countNewlines content + 1
          totalTokens := st.totalTokens + estimateTokens content
          fileCount := st.fileCount + 1 }
      | Except.error msg =>
        { st with out := st.out ++ [errorBlock (relJoin relDir name) msg] }
    else st

mutual

/-- walkDir of the content pass (source lines 205-254): list the directory
(readdirSync is not wrapped in try/catch there, so a failed listing is an
uncaught exception, modelled as Except.error), process the file entries in
case-insensitive name order, then recurse into the non-excluded
subdirectories in listing order.  The directory's own name is not checked. -/
def walkDir (scriptName relDir : String) (listing : Option (List FSNode))
    (st : WalkState) : Except String WalkState :=
  match listing with
  | none => Except.error "EACCES: permission denied, scandir"
  | some entries =>
    let files := sortFiles (entries.filter FSNode.isFileEntry)
    let st1 := files.foldl (processFile scriptName relDir) st
    walkSubdirs scriptName relDir entries st1

/-- The subdirectory loop of walkDir: skip files and excluded directories,
recurse into the rest in listing order; the first uncaught listing failure
aborts the whole walk. -/
def walkSubdirs (scriptName relDir : String) :
    List FSNode → WalkState → Except String WalkState
  | [], st => Except.ok st
  | FSNode.file _ _ :: rest, st => walkSubdirs scriptName relDir rest st
  | FSNode.dir name children :: rest, st =>
    if EXCLUDED_DIRS.contains name then walkSubdirs scriptName relDir rest st
    else
      match walkDir scriptName (relJoin relDir name) children st with
      | Except.error e => Except.error e
      | Except.ok st2 => walkSubdirs scriptName relDir rest st2

end

mutual

/-- generateTree (source lines 129-182): return nothing for an excluded
directory (this check also applies to the walk root), write the name line,
then render the sorted children; a failed listing yields the single
[ACCESS DENIED] line.  Each written line keeps its trailing newline. -/
def generateTree (scriptName baseName : String)
    (listing : Option (List FSNode)) (pre : String) : List String :=
  if EXCLUDED_DIRS.contains baseName then []
  else
    (pre ++ baseName ++ "/\n") ::
      (match listing with
       | none => [pre ++ "[ACCESS DENIED]\n"]
       | some items => treeChildren scriptName pre (sortEntries items))
termination_by sizeOf listing
decreasing_by
  simp_wf
  simp only [sortEntries]
  refine lt_of_eq_of_lt ((List.perm_insertionSort treeLE _).sizeOf_eq_sizeOf) ?_
  omega

/-- The child loop of generateTree: branch glyphs depend on being the last
child; subdirectories recurse (excluded ones are skipped), files are listed
iff shouldProcessFile passes.  As in the source, a child directory's own
line is written by the recursive call with nextPre, not with the branch
glyph. -/
def treeChildren (scriptName pre : String) : List FSNode → List String
  | [] => []
  | item :: rest =>
    let isLast := rest.isEmpty
    let curPre := pre ++ (if isLast then "└─ " else "├─ ")
    let nextPre := pre ++ (if isLast then "   " else "│  ")
    (match item with
     | FSNode.dir nm ch =>
       if EXCLUDED_DIRS.contains nm then []
       else generateTree scriptName nm ch nextPre
     | FSNode.file nm d =>
       if shouldProcessFile scriptName nm d then [curPre ++ nm ++ "\n"]
       else []) ++
    treeChildren scriptName pre rest
termination_by l => sizeOf l
decreasing_by all_goals (simp_wf; try omega)

end

/-- processDirectory (source lines 184-264): header, tree section, content
section via walkDir from the root, closing markers, and the three counters.
A listing failure inside walkDir escapes as Except.error, mirroring the
source's uncaught exception reaching the top-level catch. -/
def processDirectory (scriptName rootName : String)
    (rootListing : Option (List FSNode)) :
    Except String (List String × Nat × Nat × Nat) :=
  let hdr := ["<project_overview>\n",
              "<generated_at>" ++ rootName ++ "</generated_at>\n\n",
              "<directory_structure>\n"]
  let tree := generateTree scriptName rootName rootListing ""
  let mid := ["</directory_structure>\n\n", "<file_contents>\n"]
  match walkDir scriptName "" rootListing ⟨[], 0, 0, 0⟩ with
  | Except.error e => Except.error e
  | Except.ok st =>
    Except.ok (hdr ++ tree ++ mid ++ st.out ++
      ["</file_contents>\n", "</project_overview>"],
      st.fileCount, st.totalLines, st.totalTokens)

/-- The main execution block (source lines 266-282): the walk root is
process.cwd(); the argument vector is never consulted. -/
def mainRootDir (argv : List String) (cwd : String) : String :=
  let _ := argv
  cwd

/-- Modelled from the amended claim's words: EF BB BF is UTF-8; a first pair
FF FE or FE FF is UTF-16 (this test also captures FF FE 00 00); 00 00 FE FF
is UTF-32 ("utf32le"); any other prefix is UTF-8. -/
def bomClassifySpec (b0 b1 b2 b3 : Nat) : String :=
  if b0 = 0xEF ∧ b1 = 0xBB ∧ b2 = 0xBF then "utf8"
  else if (b0 = 0xFF ∧ b1 = 0xFE) ∨ (b0 = 0xFE ∧ b1 = 0xFF) then "utf16le"
  else if b0 = 0x00 ∧ b1 = 0x00 ∧ b2 = 0xFE ∧ b3 = 0xFF then "utf32le"
  else "utf8"

/-- A three-way numeric comparison is nonpositive exactly when the compared
keys are in order. -/
lemma cmpIf_le_iff {α : Type} [LinearOrder α] (x y : α) :
    ((if x < y then (-1 : Int) else if y < x then 1 else 0) ≤ 0) ↔ x ≤ y := by
  split_ifs with h1 h2
  · exact iff_of_true (by norm_num) h1.le
  · exact iff_of_false (by norm_num) (not_le.mpr h2)
  · exact iff_of_true le_rfl (le_of_not_lt h2)

/-- Characterization of the tree comparator's relation: directories sort
before files, and entries of the same kind sort by lowercased name. -/
lemma treeLE_iff (a b : FSNode) : treeLE a b ↔
    ((a.isDir = true ∧ b.isDir = false) ∨
     (a.isDir = b.isDir ∧ nameKey a ≤ nameKey b)) := by
  unfold treeLE treeCmp
  cases ha : a.isDir <;> cases hb : b.isDir <;> simp only [ha, hb] <;> norm_num
  · exact cmpIf_le_iff _ _
  · exact cmpIf_le_iff _ _

instance : IsTotal FSNode treeLE where
  total a b := by
    rw [treeLE_iff, treeLE_iff]
    cases ha : a.isDir <;> cases hb : b.isDir <;>
      simp [ha, hb] <;> exact le_total _ _

instance : IsTrans FSNode treeLE where
  trans a b c hab hbc := by
    rw [treeLE_iff] at hab hbc ⊢
    rcases hab with ⟨ha, hbf⟩ | ⟨hk, hle⟩
    · rcases hbc with ⟨hbt, hcf⟩ | ⟨hk2, hle2⟩
      · rw [hbf] at hbt; exact absurd hbt (by simp)
      · exact Or.inl ⟨ha, by rw [← hk2, hbf]⟩
    · rcases hbc with ⟨hbt, hcf⟩ | ⟨hk2, hle2⟩
      · exact Or.inl ⟨by rw [hk, hbt], hcf⟩
      · exact Or.inr ⟨by rw [hk, hk2], le_trans hle hle2⟩

/-- The tree pass's child sort leaves the children ordered by the
comparator's relation. -/
lemma sorted_sortEntries (l : List FSNode) : (sortEntries l).Sorted treeLE :=
  List.sorted_insertionSort treeLE l

/-- C1: the claim states that a directory whose listing fails during the
content pass is recovered locally and never aborts the run, mirroring the
tree pass's [ACCESS DENIED] handling.  The code contradicts it: walkDir
calls readdirSync outside any try/catch (source line 207), so the listing
failure is an uncaught exception and the run aborts.  This theorem
evaluates both passes at a root holding one readable file and one
unlistable subdirectory: the tree pass completes with its sentinel line,
the content pass returns the error. -/
theorem C1_content_pass_aborts_on_denied_listing :
    walkDir "project2context.js" ""
        (some [FSNode.file "a.txt" ⟨[111, 107], false, false, none⟩,
               FSNode.dir "locked" none]) ⟨[], 0, 0, 0⟩
      = Except.error "EACCES: permission denied, scandir" ∧
    generateTree "project2context.js" "proj"
        (some [FSNode.file "a.txt" ⟨[111, 107], false, false, none⟩,
               FSNode.dir "locked" none]) ""
      = ["proj/\n", "│  locked/\n", "│  [ACCESS DENIED]\n", "└─ a.txt\n"] := by
  constructor
  · simp [walkDir, walkSubdirs, sortFiles, List.insertionSort,
      List.orderedInsert, processFile, shouldProcessFile, isTextFile, readFull,
      getFileEncoding, byteAt, decodeUtf8, fileBlock, errorBlock, relJoin,
      countNewlines, estimateTokens, splitWs, splitWsGo, extname, lastDotIdx,
      nameKey, fileLE]
    decide
  · simp +decide [generateTree, treeChildren, sortEntries, List.insertionSort,
      List.orderedInsert, treeLE, treeCmp, nameKey, FSNode.isDir, FSNode.name,
      shouldProcessFile, isTextFile, extname, lastDotIdx]

/-- C2, counterexample: with the walk rooted at a directory named ".git"
(an excluded name) that holds one text file, the run succeeds and the
content section contains that file's block — the content pass never checks
the root's own name — refuting the claim for the root case.  The tree
section is empty, as generateTree does check the root's name. -/
theorem C2_counterexample_root_named_git :
    processDirectory "project2context.js" ".git"
        (some [FSNode.file "c.txt" ⟨[104, 105], false, false, none⟩])
      = Except.ok (["<project_overview>\n",
          "<generated_at>.git</generated_at>\n\n",
          "<directory_structure>\n", "</directory_structure>\n\n",
          "<file_contents>\n", "\n<file path=\"c.txt\">\nhi\n</file>\n",
          "</file_contents>\n", "</project_overview>"], 1, 1, 1) := by
  simp +decide [processDirectory, walkDir, walkSubdirs, generateTree,
    treeChildren, sortEntries, sortFiles, List.insertionSort,
    List.orderedInsert, treeLE, treeCmp, processFile, shouldProcessFile,
    isTextFile, readFull, getFileEncoding, byteAt, decodeUtf8, fileBlock,
    relJoin, countNewlines, estimateTokens, splitWs, splitWsGo, extname,
    lastDotIdx, nameKey, fileLE, FSNode.isDir, FSNode.name]
  try decide

/-- C2, amended: every directory entry with an excluded name encountered
below the root contributes nothing — generateTree returns no lines for such
a directory (this branch also suppresses the tree when the root itself has
an excluded name), the tree pass's child loop skips it, and the content
pass's walk of a listing is unchanged by removing it — while the content
pass does not check the walk root's own name (see the counterexample). -/
theorem C2_amended_excluded_dir_subtree_skipped (nm : String)
    (h : EXCLUDED_DIRS.contains nm = true) :
    (∀ scriptName listing pre, generateTree scriptName nm listing pre = []) ∧
    (∀ scriptName pre ch rest,
      treeChildren scriptName pre (FSNode.dir nm ch :: rest)
        = treeChildren scriptName pre rest) ∧
    (∀ scriptName relDir ch rest st,
      walkDir scriptName relDir (some (FSNode.dir nm ch :: rest)) st
        = walkDir scriptName relDir (some rest) st) := by
  replace h := List.mem_of_elem_eq_true h
  refine ⟨fun scriptName listing pre => ?_, fun scriptName pre ch rest => ?_,
    fun scriptName relDir ch rest st => ?_⟩
  · rw [generateTree.eq_def]
    simp [h]
  · rw [treeChildren]
    simp [h]
  · rw [walkDir, walkDir]
    simp [walkSubdirs, h, List.filter, FSNode.isFileEntry]

/-- C2, witness: the amended theorem applied to the excluded name ".git". -/
theorem C2_amended_witness :
    generateTree "project2context.js" ".git"
        (some [FSNode.file "c.txt" ⟨[104, 105], false, false, none⟩]) "" = [] :=
  (C2_amended_excluded_dir_subtree_skipped ".git" (by decide)).1
    "project2context.js"
    (some [FSNode.file "c.txt" ⟨[104, 105], false, false, none⟩]) ""

/-- C3, counterexample: a file beginning FF FE 00 00 (the UTF-32
little-endian BOM) is classified "utf16le", not "utf32le": the UTF-16 test
at source line 72 matches the FF FE prefix before the four-byte test at
line 76 is reached.  This refutes the claim that such a file is detected
as UTF-32. -/
theorem C3_counterexample_fffe0000_is_utf16le :
    getFileEncoding ⟨[0xFF, 0xFE, 0x00, 0x00], false, false, none⟩ = "utf16le" ∧
    getFileEncoding ⟨[0xFF, 0xFE, 0x00, 0x00], false, false, none⟩ ≠ "utf32le" :=
  ⟨rfl, by decide⟩

/-- C3, amended: encoding detection inspects the first four probe bytes
(zero-padded past end of file) and classifies EF BB BF as UTF-8; FF FE or
FE FF as UTF-16 — this test also captures FF FE 00 00, so the UTF-32
little-endian BOM is reported as UTF-16; 00 00 FE FF as "utf32le"; any
other prefix, or a probe failure, as UTF-8. -/
theorem C3_amended_bom_classification (d : FileData) :
    getFileEncoding d =
      if d.bomErr then "utf8"
      else bomClassifySpec (byteAt d.bytes 0) (byteAt d.bytes 1)
             (byteAt d.bytes 2) (byteAt d.bytes 3) := by
  simp only [getFileEncoding, bomClassifySpec]
  split_ifs <;> first | rfl | tauto

/-- C4, counterexample: invoked with a positional argument naming a
subdirectory, the walk is still rooted at the current working directory,
not at the subdirectory — the main execution block reads process.cwd() and
never consults the argument vector. -/
theorem C4_counterexample_argument_ignored :
    mainRootDir ["node", "project2context.js", "subdir"] "/home/user"
        = "/home/user" ∧
    mainRootDir ["node", "project2context.js", "subdir"] "/home/user"
        ≠ "/home/user/subdir" :=
  ⟨rfl, by decide⟩

/-- C4, amended: whatever the argument vector holds, the walk is rooted at
the current working directory. -/
theorem C4_amended_root_is_cwd (argv : List String) (cwd : String) :
    mainRootDir argv cwd = cwd := rfl

/-- C5: for every file that passes shouldProcessFile but whose read or
decode fails, the content pass appends one error block carrying the file's
relative path and the error description, leaves fileCount, totalLines and
totalTokens unchanged, and the loop continues with the remaining entries
instead of aborting. -/
theorem C5_read_failure_error_block_counters_unchanged
    (scriptName relDir name : String) (d : FileData) (st : WalkState)
    (msg : String)
    (hproc : shouldProcessFile scriptName name d = true)
    (hfail : readFull (getFileEncoding d) d = Except.error msg) :
    processFile scriptName relDir st (FSNode.file name d)
        = { st with out := st.out ++ [errorBlock (relJoin relDir name) msg] } ∧
    ∀ rest : List FSNode,
      (FSNode.file name d :: rest).foldl (processFile scriptName relDir) st
        = rest.foldl (processFile scriptName relDir)
            { st with
              out := st.out ++ [errorBlock (relJoin relDir name) msg] } := by
  have h1 : processFile scriptName relDir st (FSNode.file name d)
      = { st with out := st.out ++ [errorBlock (relJoin relDir name) msg] } := by
    simp [processFile, hproc, hfail]
  exact ⟨h1, fun rest => by simp [List.foldl_cons, h1]⟩

/-- C5, witness: a .txt file whose full read fails with EIO gets exactly
its error block while all three counters stay 0. -/
theorem C5_witness :
    processFile "project2context.js" "" ⟨[], 0, 0, 0⟩
        (FSNode.file "x.txt" ⟨[104, 105], false, false, some "EIO: i/o error"⟩)
      = ⟨[errorBlock "x.txt" "EIO: i/o error"], 0, 0, 0⟩ := by
  have h := (C5_read_failure_error_block_counters_unchanged "project2context.js"
      "" "x.txt" ⟨[104, 105], false, false, some "EIO: i/o error"⟩ ⟨[], 0, 0, 0⟩
      "EIO: i/o error" (by decide) rfl).1
  simpa [relJoin] using h

/-- C6: once the name and extension gates pass (also for extensionless
names and text extensions such as .txt), the null-byte content sniff is the
final gate: shouldProcessFile returns false when the sniff read errors,
false when a null byte occurs in the first 1024 bytes, and true otherwise —
always a value, never an exception to the caller. -/
theorem C6_null_sniff_final_gate (scriptName name : String) (d : FileData)
    (h1 : name ≠ scriptName)
    (h2 : name ∉ EXCLUDED_FILES)
    (h3 : lowerStr (extname name) ∉ EXCLUDED_EXTENSIONS)
    (h4 : lowerStr (extname name) ∈ TEXT_EXTENSIONS ∨
          lowerStr (extname name) = "") :
    shouldProcessFile scriptName name d
      = (!d.sniffErr && !((d.bytes.take 1024).contains 0)) := by
  simp only [shouldProcessFile, isTextFile]
  rw [if_neg h1]
  rw [if_neg (by simp [h2])]
  rw [if_neg (by simp [h3])]
  rw [if_neg (by rcases h4 with h4 | h4 <;> simp [h4])]
  cases hsn : d.sniffErr <;> simp [hsn]

/-- C6, witness: a .txt file with a null byte among its first bytes is
rejected; the same name with clean bytes is accepted. -/
theorem C6_witness :
    shouldProcessFile "project2context.js" "notes.txt"
        ⟨[0, 65], false, false, none⟩ = false ∧
    shouldProcessFile "project2context.js" "notes.txt"
        ⟨[65, 66], false, false, none⟩ = true := by
  have ha := C6_null_sniff_final_gate "project2context.js" "notes.txt"
      ⟨[0, 65], false, false, none⟩ (by decide) (by decide) (by decide)
      (Or.inl (by decide))
  have hb := C6_null_sniff_final_gate "project2context.js" "notes.txt"
      ⟨[65, 66], false, false, none⟩ (by decide) (by decide) (by decide)
      (Or.inl (by decide))
  exact ⟨ha.trans (by decide), hb.trans (by decide)⟩

/-- C7: estimateTokens returns words + specialChars + floor(words / 4),
where words counts the segments of splitting on whitespace runs and
specialChars the characters outside [a-zA-Z0-9\s]; in particular
estimateTokens "a b c" = 3 + 0 + 0 = 3. -/
theorem C7_estimateTokens_formula :
    (∀ t : List Char, estimateTokens t
        = (splitWs t).length + (t.filter isSpecialChar).length
          + (splitWs t).length / 4) ∧
    estimateTokens "a b c".data = 3 :=
  ⟨fun _ => rfl, by decide⟩

/-- C8: the tree pass sorts every child listing with all directories before
all files and each kind in case-insensitive (lowercased) name order; on the
siblings zeta (a directory), Apple.txt and banana.txt the emitted order is
zeta, then Apple.txt, then banana.txt. -/
theorem C8_tree_ordering :
    (∀ l : List FSNode, (sortEntries l).Pairwise (fun a b =>
        (b.isDir = true → a.isDir = true) ∧
        (a.isDir = b.isDir → nameKey a ≤ nameKey b))) ∧
    generateTree "project2context.js" "root"
        (some [FSNode.file "Apple.txt" ⟨[97], false, false, none⟩,
               FSNode.file "banana.txt" ⟨[98], false, false, none⟩,
               FSNode.dir "zeta" (some [])]) ""
      = ["root/\n", "│  zeta/\n", "├─ Apple.txt\n", "└─ banana.txt\n"] := by
  constructor
  · intro l
    refine List.Pairwise.imp ?_ (sorted_sortEntries l)
    intro a b hab
    rcases (treeLE_iff a b).1 hab with ⟨had, hbf⟩ | ⟨hk, hle⟩
    · refine ⟨fun hbd => absurd hbd (by simp [hbf]), fun hkk => ?_⟩
      rw [had, hbf] at hkk
      exact absurd hkk (by simp)
    · exact ⟨fun hbd => by rw [hk]; exact hbd, fun _ => hle⟩
  · simp +decide [generateTree, treeChildren, sortEntries, List.insertionSort,
      List.orderedInsert, treeLE, treeCmp, nameKey, FSNode.isDir, FSNode.name,
      shouldProcessFile, isTextFile, extname, lastDotIdx]

/-- C9, counterexample: a file whose first four bytes are 00 00 FE FF (the
UTF-32 big-endian BOM) never reaches the content read: the BOM's null bytes
fail the isTextFile sniff inside shouldProcessFile, so the content pass
emits neither a file block nor an error block for it — the walk finishes
with an empty output stream, refuting the claim that an error block is
always emitted for such a file. -/
theorem C9_counterexample_utf32be_bom_never_processed :
    walkDir "project2context.js" ""
        (some [FSNode.file "bom.txt"
          ⟨[0x00, 0x00, 0xFE, 0xFF, 65, 0, 0, 0], false, false, none⟩])
        ⟨[], 0, 0, 0⟩
      = Except.ok ⟨[], 0, 0, 0⟩ := by
  simp +decide [walkDir, walkSubdirs, sortFiles, List.insertionSort,
    List.orderedInsert, processFile, shouldProcessFile, isTextFile, extname,
    lastDotIdx, nameKey, fileLE]

/-- C9, amended: for a readable file beginning 00 00 FE FF, getFileEncoding
does return "utf32le" (the one reachable arm of the UTF-32 test), and the
full read with that encoding name would fail — but shouldProcessFile is
false for such a file because the BOM's null bytes trip the content sniff,
so the content pass skips it entirely and its per-file step leaves the
state untouched. -/
theorem C9_amended_utf32be_sniffed_out (name : String) (d : FileData)
    (bs : List Nat)
    (hpre : d.bytes = 0x00 :: 0x00 :: 0xFE :: 0xFF :: bs)
    (hbom : d.bomErr = false) :
    getFileEncoding d = "utf32le" ∧
    readFull (getFileEncoding d) d
        = Except.error "Unknown encoding: utf32le" ∧
    (∀ scriptName, shouldProcessFile scriptName name d = false) ∧
    (∀ scriptName relDir st,
      processFile scriptName relDir st (FSNode.file name d) = st) := by
  have henc : getFileEncoding d = "utf32le" := by
    simp [getFileEncoding, byteAt, hpre, hbom]
  have hsp : ∀ scriptName, shouldProcessFile scriptName name d = false := by
    intro scriptName
    simp only [shouldProcessFile, isTextFile]
    split_ifs <;> simp_all [hpre]
  have hpf : ∀ scriptName relDir st,
      processFile scriptName relDir st (FSNode.file name d) = st := by
    intro scriptName relDir st
    simp [processFile, hsp scriptName]
  exact ⟨henc, by rw [henc]; rfl, hsp, hpf⟩

/-- C9, witness: the amended theorem at a concrete four-byte file. -/
theorem C9_witness :
    getFileEncoding ⟨[0x00, 0x00, 0xFE, 0xFF], false, false, none⟩
        = "utf32le" ∧
    shouldProcessFile "project2context.js" "bom.txt"
        ⟨[0x00, 0x00, 0xFE, 0xFF], false, false, none⟩ = false := by
  have h := C9_amended_utf32be_sniffed_out "bom.txt"
      ⟨[0x00, 0x00, 0xFE, 0xFF], false, false, none⟩ [] rfl rfl
  exact ⟨h.1, h.2.2.1 "project2context.js"⟩

/-- C10: a successfully read file whose decoded content is empty still adds
1 to totalLines (newline count plus one) and 1 to totalTokens (splitting
the empty text yields one empty segment, counted as a word), alongside its
file block and the fileCount increment. -/
theorem C10_empty_file_counts_one_line_one_token
    (scriptName relDir name : String) (d : FileData) (st : WalkState)
    (hproc : shouldProcessFile scriptName name d = true)
    (hread : readFull (getFileEncoding d) d = Except.ok []) :
    (splitWs []).length = 1 ∧ estimateTokens [] = 1 ∧
    processFile scriptName relDir st (FSNode.file name d)
      = { out := st.out ++ [fileBlock (relJoin relDir name) []],
          totalLines := st.totalLines + 1,
          totalTokens := st.totalTokens + 1,
          fileCount := st.fileCount + 1 } := by
  refine ⟨rfl, rfl, ?_⟩
  simp [processFile, hproc, hread, countNewlines, estimateTokens, splitWs,
    splitWsGo]

/-- C10, witness: an empty .txt file contributes one line and one token. -/
theorem C10_witness :
    processFile "project2context.js" "" ⟨[], 0, 0, 0⟩
        (FSNode.file "empty.txt" ⟨[], false, false, none⟩)
      = ⟨[fileBlock "empty.txt" []], 1, 1, 1⟩ := by
  have h := (C10_empty_file_counts_one_line_one_token "project2context.js" ""
      "empty.txt" ⟨[], false, false, none⟩ ⟨[], 0, 0, 0⟩ (by decide)
      (by simp +decide [readFull, getFileEncoding, byteAt, decodeUtf8])).2.2
  simpa [relJoin] using h

end P2C
